import Mathlib

/-!
# Fadecandy: OctoWS2811z LED driver and USB device matching

A shallow embedding of `firmware/OctoWS2811z.cpp` (the zero-copy WS2811 driver)
and of `USBDevice::matchConfigurationWithTypeAndSerial` from
`server/usbdevice.cpp`, with the properties of the driver's double buffer, its
DMA set-up, its busy query and the configuration matcher.

Conventions of the embedding.

* Machine integers are natural numbers; a store into a narrower location is
  written with an explicit reduction modulo `2 ^ w`.
* RAM is a function from 32-bit addresses to bytes.  Memory-mapped registers are
  fields of the state holding the last value written to them; the driver's
  variables and the registers are taken not to lie inside the caller's block.
* Calls into the Arduino core whose bodies are not part of the driver
  (`pinMode`, `analogWrite`, ...) are recorded, in order, in a call log.
* The microsecond clock, the free-running timer counter and the arrival of the
  DMA completion interrupt are inputs: an environment gives their value at every
  tick, one tick per poll of a busy-wait loop.
-/

set_option linter.dupNamespace false

namespace OctoWS2811z

/-! ## Machine arithmetic -/

/-- Reduction of a value to an unsigned 32-bit integer. -/
def trunc32 (x : Nat) : Nat := x % 2 ^ 32

/-- Reduction of a value to an unsigned 16-bit integer. -/
def trunc16 (x : Nat) : Nat := x % 2 ^ 16

/-- Reduction of a value to an unsigned 8-bit integer. -/
def trunc8 (x : Nat) : Nat := x % 2 ^ 8

/-- Unsigned 32-bit subtraction `a - b`, wrapping modulo `2 ^ 32`. -/
def sub32 (a b : Nat) : Nat := (trunc32 a + (2 ^ 32 - trunc32 b)) % 2 ^ 32

/-- Unsigned 32-bit negation `-a`. -/
def neg32 (a : Nat) : Nat := (2 ^ 32 - trunc32 a) % 2 ^ 32

/-! ## Constants of the platform headers -/

/-- Constants and bit-field helpers that the driver takes from the platform
headers (`OctoWS2811z.h` and the Kinetis register header).  The headers are not
among the driver sources, so the driver is modelled over any choice of them. -/
structure Kinetis where
  WS2811_400kHz : Nat
  OUTPUT : Nat
  INPUT : Nat
  INPUT_PULLUP : Nat
  PORT_PCR_IRQC : Nat → Nat
  PORT_PCR_MUX : Nat → Nat
  SIM_SCGC7_DMA : Nat
  SIM_SCGC6_DMAMUX : Nat
  DMA_TCD_ATTR_SSIZE : Nat → Nat
  DMA_TCD_ATTR_DSIZE : Nat → Nat
  DMA_TCD_CSR_DREQ : Nat
  DMA_TCD_CSR_INTMAJOR : Nat
  DMAMUX_SOURCE_PORTA : Nat
  DMAMUX_SOURCE_PORTB : Nat
  DMAMUX_SOURCE_PORTC : Nat
  DMAMUX_ENABLE : Nat
  IRQ_DMA_CH3 : Nat

/-- Modelled from the spec: the values of the header constants on the MK20DX128
(Teensy 3.0) target, whose headers are missing from the driver sources.  Only
used to evaluate the driver on concrete inputs. -/
def mk20dx128 : Kinetis where
  WS2811_400kHz := 0x10
  OUTPUT := 1
  INPUT := 0
  INPUT_PULLUP := 2
  PORT_PCR_IRQC := fun n => (n &&& 15) <<< 16
  PORT_PCR_MUX := fun n => (n &&& 7) <<< 8
  SIM_SCGC7_DMA := 0x2
  SIM_SCGC6_DMAMUX := 0x2
  DMA_TCD_ATTR_SSIZE := fun n => (n &&& 7) <<< 8
  DMA_TCD_ATTR_DSIZE := fun n => (n &&& 7) <<< 0
  DMA_TCD_CSR_DREQ := 0x0008
  DMA_TCD_CSR_INTMAJOR := 0x0002
  DMAMUX_SOURCE_PORTA := 49
  DMAMUX_SOURCE_PORTB := 50
  DMAMUX_SOURCE_PORTC := 51
  DMAMUX_ENABLE := 0x80
  IRQ_DMA_CH3 := 3

/-- Modelled from the spec: width in bits of the `CITER_ELINKNO` and
`BITER_ELINKNO` registers of a DMA transfer descriptor.  Their declarations live
in the Kinetis register header, which is missing from the driver sources; they
are 16-bit registers. -/
def iterBits : Nat := 16

/-- A store into a `CITER_ELINKNO` or `BITER_ELINKNO` register. -/
def truncIter (x : Nat) : Nat := x % 2 ^ iterBits

/-! ## Data model -/

/-- Addresses a DMA descriptor can hold: the named objects the driver takes the
address of, or a plain pointer value. -/
inductive Addr where
  | ones
  | GPIOD_PSOR
  | GPIOD_PDOR
  | GPIOD_PCOR
  | ptr (a : Nat)
  deriving DecidableEq, Repr

/-- The contents of `static const uint8_t ones = 0xFF;`. -/
def ones : Nat := 0xFF

/-- RAM: a byte at every address. -/
abbrev Mem := Nat → Nat

/-- The byte store `m[a] = v`. -/
def store (m : Mem) (a v : Nat) : Mem := fun x => if x = a then v else m x

/-- The byte a DMA channel reads from its source address: the constant `ones`,
a byte of RAM, or the current value of a port register. -/
def srcByte (m : Mem) (psor pdor pcor : Nat) : Addr → Nat
  | Addr.ones => ones
  | Addr.GPIOD_PSOR => psor
  | Addr.GPIOD_PDOR => pdor
  | Addr.GPIOD_PCOR => pcor
  | Addr.ptr a => m a

/-- The registers of one DMA transfer control descriptor. -/
structure TCD where
  SADDR : Addr
  SOFF : Int
  ATTR : Nat
  NBYTES_MLNO : Nat
  SLAST : Nat
  DADDR : Addr
  DOFF : Int
  CITER_ELINKNO : Nat
  DLASTSGA : Nat
  CSR : Nat
  BITER_ELINKNO : Nat

/-- Calls into the Arduino core made by `begin`. -/
inductive LibCall where
  | pinMode (pin mode : Nat)
  | analogWriteResolution (bits : Nat)
  | analogWriteFrequency (pin frequency : Nat)
  | analogWrite (pin value : Nat)
  | NVIC_ENABLE_IRQ (irq : Nat)
  deriving DecidableEq, Repr

/-- The state the driver reads and writes: its static members, the two
file-scope variables, RAM, the interrupt mask, the registers it touches and the
log of library calls. -/
structure State where
  stripLen : Nat
  frameBuffer : Nat
  drawBuffer : Nat
  params : Nat
  update_in_progress : Nat
  update_completed_at : Nat
  mem : Mem
  interruptsEnabled : Bool
  GPIOD_PCOR : Nat
  CORE_PIN16_CONFIG : Nat
  CORE_PIN15_CONFIG : Nat
  CORE_PIN4_CONFIG : Nat
  SIM_SCGC7 : Nat
  SIM_SCGC6 : Nat
  DMA_CR : Nat
  DMA_ERQ : Nat
  DMA_CINT : Nat
  DMA_TCD1 : TCD
  DMA_TCD2 : TCD
  DMA_TCD3 : TCD
  DMAMUX0_CHCFG1 : Nat
  DMAMUX0_CHCFG2 : Nat
  DMAMUX0_CHCFG3 : Nat
  FTM1_SC : Nat
  FTM1_C1V : Nat
  PORTA_ISFR : Nat
  PORTB_ISFR : Nat
  PORTC_ISFR : Nat
  calls : List LibCall

/-- What the hardware feeds the driver, tick by tick: the value `micros()`
returns, the value read from `FTM1_CNT`, and whether the completion interrupt of
DMA channel 3 is raised. -/
structure Env where
  micros : Nat → Nat
  FTM1_CNT : Nat → Nat
  dmaDone : Nat → Bool

/-! ## The driver -/

/-- The constructor `OctoWS2811z::OctoWS2811z(numPerStrip, buffer, config)`.
`stripLen` is a `uint16_t`, `params` a `uint8_t`; the offset of the draw buffer
is computed in 32-bit arithmetic. -/
def OctoWS2811z (numPerStrip buffer config : Nat) (s : State) : State :=
  { s with
    stripLen := trunc16 numPerStrip
    frameBuffer := buffer
    drawBuffer := trunc32 (trunc32 (24 * numPerStrip) + buffer)
    params := trunc8 config }

/-- The loop of `begin` that clears both buffers:
`for (i = 0; i < bufsize; i++) { frameBuffer[i] = 0; drawBuffer[i] = 0; }`. -/
def clearBuffers (frameBuffer drawBuffer bufsize : Nat) (m : Mem) : Mem :=
  (List.range bufsize).foldl
    (fun m i => store (store m (trunc32 (frameBuffer + i)) 0) (trunc32 (drawBuffer + i)) 0) m

/-- The method `OctoWS2811z::begin`.  A register the method writes twice
(`DMAMUX0_CHCFG1` to `3`, first with 0) holds the second value. -/
def begin (hw : Kinetis) (s : State) : State :=
  let bufsize := trunc32 (s.stripLen * 24)
  let frequency := if s.params &&& hw.WS2811_400kHz ≠ 0 then 400000 else 800000
  { s with
    mem := clearBuffers s.frameBuffer s.drawBuffer bufsize s.mem
    GPIOD_PCOR := 0xFF
    calls := s.calls ++
      [ LibCall.pinMode 2 hw.OUTPUT, LibCall.pinMode 14 hw.OUTPUT,
        LibCall.pinMode 7 hw.OUTPUT, LibCall.pinMode 8 hw.OUTPUT,
        LibCall.pinMode 6 hw.OUTPUT, LibCall.pinMode 20 hw.OUTPUT,
        LibCall.pinMode 21 hw.OUTPUT, LibCall.pinMode 5 hw.OUTPUT,
        LibCall.analogWriteResolution 8,
        LibCall.analogWriteFrequency 3 frequency,
        LibCall.analogWriteFrequency 4 frequency,
        LibCall.analogWrite 3 60,
        LibCall.analogWrite 4 176,
        LibCall.pinMode 3 hw.INPUT_PULLUP,
        LibCall.pinMode 15 hw.INPUT,
        LibCall.NVIC_ENABLE_IRQ hw.IRQ_DMA_CH3 ]
    CORE_PIN16_CONFIG := hw.PORT_PCR_IRQC 1 ||| hw.PORT_PCR_MUX 3
    CORE_PIN15_CONFIG := hw.PORT_PCR_IRQC 2 ||| hw.PORT_PCR_MUX 1
    CORE_PIN4_CONFIG := hw.PORT_PCR_IRQC 2 ||| hw.PORT_PCR_MUX 3
    SIM_SCGC7 := s.SIM_SCGC7 ||| hw.SIM_SCGC7_DMA
    SIM_SCGC6 := s.SIM_SCGC6 ||| hw.SIM_SCGC6_DMAMUX
    DMA_CR := 0
    DMA_ERQ := 0
    DMA_TCD1 :=
      { SADDR := Addr.ones
        SOFF := 0
        ATTR := hw.DMA_TCD_ATTR_SSIZE 0 ||| hw.DMA_TCD_ATTR_DSIZE 0
        NBYTES_MLNO := 1
        SLAST := 0
        DADDR := Addr.GPIOD_PSOR
        DOFF := 0
        CITER_ELINKNO := truncIter bufsize
        DLASTSGA := 0
        CSR := hw.DMA_TCD_CSR_DREQ
        BITER_ELINKNO := truncIter bufsize }
    DMA_TCD2 :=
      { SADDR := s.DMA_TCD2.SADDR
        SOFF := 1
        ATTR := hw.DMA_TCD_ATTR_SSIZE 0 ||| hw.DMA_TCD_ATTR_DSIZE 0
        NBYTES_MLNO := 1
        SLAST := neg32 bufsize
        DADDR := Addr.GPIOD_PDOR
        DOFF := 0
        CITER_ELINKNO := truncIter bufsize
        DLASTSGA := 0
        CSR := hw.DMA_TCD_CSR_DREQ
        BITER_ELINKNO := truncIter bufsize }
    DMA_TCD3 :=
      { SADDR := Addr.ones
        SOFF := 0
        ATTR := hw.DMA_TCD_ATTR_SSIZE 0 ||| hw.DMA_TCD_ATTR_DSIZE 0
        NBYTES_MLNO := 1
        SLAST := 0
        DADDR := Addr.GPIOD_PCOR
        DOFF := 0
        CITER_ELINKNO := truncIter bufsize
        DLASTSGA := 0
        CSR := hw.DMA_TCD_CSR_DREQ ||| hw.DMA_TCD_CSR_INTMAJOR
        BITER_ELINKNO := truncIter bufsize }
    DMAMUX0_CHCFG1 := hw.DMAMUX_SOURCE_PORTB ||| hw.DMAMUX_ENABLE
    DMAMUX0_CHCFG2 := hw.DMAMUX_SOURCE_PORTC ||| hw.DMAMUX_ENABLE
    DMAMUX0_CHCFG3 := hw.DMAMUX_SOURCE_PORTA ||| hw.DMAMUX_ENABLE }

/-- The interrupt handler `dma_ch3_isr`, run when `micros()` reads `now`. -/
def dma_ch3_isr (now : Nat) (s : State) : State :=
  { s with
    DMA_CINT := 3
    update_completed_at := trunc32 now
    update_in_progress := 0 }

/-- The method `OctoWS2811z::busy`, called when `micros()` reads `now`. -/
def busy (now : Nat) (s : State) : Int :=
  if s.update_in_progress ≠ 0 then 1
  else if sub32 now s.update_completed_at < 50 then 1
  else 0

/-- The buffer exchange of `show`: `std::swap(frameBuffer, drawBuffer)`. -/
def swap (s : State) : State :=
  { s with frameBuffer := s.drawBuffer, drawBuffer := s.frameBuffer }

/-- Delivery of the completion interrupt at tick `k`: the handler runs when the
interrupt is raised and interrupts are enabled. -/
def deliver (env : Env) (k : Nat) (s : State) : State :=
  if s.interruptsEnabled && env.dmaDone k then dma_ch3_isr (env.micros k) s else s

/-- The loop `while (update_in_progress) ;` of `show`, started at tick `k`.
Every poll takes one tick; `none` when the polls allowed run out. -/
def waitPrior (env : Env) : Nat → Nat → State → Option (Nat × State)
  | 0, _, _ => none
  | fuel + 1, k, s =>
    let s1 := deliver env k s
    if s1.update_in_progress ≠ 0 then waitPrior env fuel (k + 1) s1
    else some (k + 1, s1)

/-- The loop `while (micros() - update_completed_at < 50) ;` of `show`. -/
def waitReset (env : Env) : Nat → Nat → State → Option (Nat × State)
  | 0, _, _ => none
  | fuel + 1, k, s =>
    let s1 := deliver env k s
    if sub32 (env.micros k) s1.update_completed_at < 50 then waitReset env fuel (k + 1) s1
    else some (k + 1, s1)

/-- A loop `while (c(FTM1_CNT)) ;` of `show`, run with interrupts disabled;
returns the tick after the poll on which `c` failed. -/
def waitCnt (env : Env) (c : Nat → Bool) : Nat → Nat → Option Nat
  | 0, _ => none
  | fuel + 1, k =>
    if c (env.FTM1_CNT k) then waitCnt env c fuel (k + 1) else some (k + 1)

/-- The method `OctoWS2811z::show` (`show` alone is a reserved word), entered at
tick `k`; every busy-wait loop may poll at most `fuel` times.  Returns the tick
and the state on return. -/
def show_ (env : Env) (fuel k : Nat) (s : State) : Option (Nat × State) :=
  match waitPrior env fuel k s with
  | none => none
  | some (k1, s1) =>
    let s2 := swap s1
    let s3 := { s2 with DMA_TCD2 := { s2.DMA_TCD2 with SADDR := Addr.ptr s2.frameBuffer } }
    match waitReset env fuel k1 s3 with
    | none => none
    | some (k2, s4) =>
      let s5 := deliver env k2 s4
      let sc := s5.FTM1_SC
      let cv := s5.FTM1_C1V
      let s6 := { s5 with interruptsEnabled := false }
      let s7 := { s6 with update_in_progress := 1 }
      match waitCnt env (fun cnt => decide (cnt ≤ cv)) fuel (k2 + 1) with
      | none => none
      | some k3 =>
        match waitCnt env (fun cnt => decide (cnt > cv)) fuel k3 with
        | none => none
        | some k4 =>
          match waitCnt env (fun cnt => decide (cnt < cv)) fuel k4 with
          | none => none
          | some k5 =>
            let s8 := { s7 with FTM1_SC := sc &&& 0xE7 }
            let s9 := { s8 with
              PORTB_ISFR := 1 <<< 0
              PORTC_ISFR := 1 <<< 0
              PORTA_ISFR := 1 <<< 13
              DMA_ERQ := 0x0E }
            let s10 := { s9 with FTM1_SC := sc }
            some (k5, { s10 with interruptsEnabled := true })

/-! ## Sequences of calls and reference states -/

/-- The calls that prepare the driver without launching a frame. -/
inductive SetupCall where
  | construct (numPerStrip buffer config : Nat)
  | begin

/-- Runs a sequence of set-up calls, first call first. -/
def setup (hw : Kinetis) : List SetupCall → State → State
  | [], s => s
  | SetupCall.construct n b c :: rest, s => setup hw rest (OctoWS2811z n b c s)
  | SetupCall.begin :: rest, s => setup hw rest (begin hw s)

/-- The state at program start: the two file-scope variables hold their static
initialisers, `update_in_progress = 0` and `update_completed_at = 0`; everything
else is as in `rest`. -/
def boot (rest : State) : State :=
  { rest with update_in_progress := 0, update_completed_at := 0 }

/-- What the application does with a constructed driver: call `begin`, call
`show` (with a bound on the polls of each busy-wait loop), or let one tick pass,
during which the completion interrupt may be served. -/
inductive Call where
  | begin
  | show (fuel : Nat)
  | idle

/-- Runs a sequence of calls from tick `k`; `none` when a `show` does not return
within its bound. -/
def run (hw : Kinetis) (env : Env) : List Call → Nat → State → Option (Nat × State)
  | [], k, s => some (k, s)
  | Call.begin :: rest, k, s => run hw env rest k (begin hw s)
  | Call.show fuel :: rest, k, s =>
    match show_ env fuel k s with
    | none => none
    | some (k1, s1) => run hw env rest k1 s1
  | Call.idle :: rest, k, s => run hw env rest (k + 1) (deliver env k s)

/-- The number of `show` calls in a sequence of calls. -/
def showCount : List Call → Nat
  | [] => 0
  | Call.show _ :: rest => showCount rest + 1
  | _ :: rest => showCount rest

/-- The state `s1` is `s`, or `s` after the completion handler has run. -/
def Served (s s1 : State) : Prop := s1 = s ∨ ∃ t, s1 = dma_ch3_isr t s

/-- A region of RAM: first address and length in bytes. -/
structure Region where
  start : Nat
  len : Nat
  deriving DecidableEq, Repr

/-- The region the driver transmits from: `stripLen * 24` bytes at `frameBuffer`. -/
def frontRegion (s : State) : Region := ⟨s.frameBuffer, s.stripLen * 24⟩

/-- The region the caller draws into: `stripLen * 24` bytes at `drawBuffer`. -/
def drawRegion (s : State) : Region := ⟨s.drawBuffer, s.stripLen * 24⟩

/-- The first half of the caller's block of `2 * N * 24` bytes at `buffer`. -/
def lowerHalf (buffer N : Nat) : Region := ⟨buffer, 24 * N⟩

/-- The second half of the caller's block of `2 * N * 24` bytes at `buffer`. -/
def upperHalf (buffer N : Nat) : Region := ⟨buffer + 24 * N, 24 * N⟩

/-- Two regions share no byte. -/
def Region.Disjoint (r q : Region) : Prop :=
  r.start + r.len ≤ q.start ∨ q.start + q.len ≤ r.start

/-- A region lies inside the caller's block of `2 * N * 24` bytes at `buffer`. -/
def Region.Within (r : Region) (buffer N : Nat) : Prop :=
  buffer ≤ r.start ∧ r.start + r.len ≤ buffer + 2 * N * 24

/-- Both buffer halves, the `24 * N` bytes at `frameBuffer` and the `24 * N`
bytes at `drawBuffer`, hold only zero bytes. -/
def BuffersZeroed (N : Nat) (s : State) : Prop :=
  ∀ j, j < 24 * N → s.mem (s.frameBuffer + j) = 0 ∧ s.mem (s.drawBuffer + j) = 0

/-- A flag of a control register is set: every bit of `flag` is a bit of `reg`. -/
def flagSet (flag reg : Nat) : Prop := reg &&& flag = flag

/-- A descriptor whose fields are all zero. -/
def zeroTCD : TCD where
  SADDR := Addr.ptr 0
  SOFF := 0
  ATTR := 0
  NBYTES_MLNO := 0
  SLAST := 0
  DADDR := Addr.ptr 0
  DOFF := 0
  CITER_ELINKNO := 0
  DLASTSGA := 0
  CSR := 0
  BITER_ELINKNO := 0

/-- A state with interrupts enabled in which every variable and register is zero
and every byte of RAM holds `fill`. -/
def filledState (fill : Nat) : State where
  stripLen := 0
  frameBuffer := 0
  drawBuffer := 0
  params := 0
  update_in_progress := 0
  update_completed_at := 0
  mem := fun _ => fill
  interruptsEnabled := true
  GPIOD_PCOR := 0
  CORE_PIN16_CONFIG := 0
  CORE_PIN15_CONFIG := 0
  CORE_PIN4_CONFIG := 0
  SIM_SCGC7 := 0
  SIM_SCGC6 := 0
  DMA_CR := 0
  DMA_ERQ := 0
  DMA_CINT := 0
  DMA_TCD1 := zeroTCD
  DMA_TCD2 := zeroTCD
  DMA_TCD3 := zeroTCD
  DMAMUX0_CHCFG1 := 0
  DMAMUX0_CHCFG2 := 0
  DMAMUX0_CHCFG3 := 0
  FTM1_SC := 0
  FTM1_C1V := 0
  PORTA_ISFR := 0
  PORTB_ISFR := 0
  PORTC_ISFR := 0
  calls := []

/-- An environment with a clock that advances 100 microseconds per tick, a timer
counter that alternates between 0 and 1, and the completion interrupt raised at
tick 6 only. -/
def frameEnv : Env where
  micros := fun k => 100 * k
  FTM1_CNT := fun k => k % 2
  dmaDone := fun k => decide (k = 6)

/-- As `frameEnv`, but the completion interrupt is never raised. -/
def quietEnv : Env where
  micros := fun k => 100 * k
  FTM1_CNT := fun k => k % 2
  dmaDone := fun _ => false

end OctoWS2811z

namespace USBDevice

/-! ## The configuration matcher of `server/usbdevice.cpp` -/

/-- A JSON value (`rapidjson::Value`): an object is the list of its members in
document order. -/
inductive Value where
  | null
  | bool (b : Bool)
  | number (n : Int)
  | string (s : String)
  | array (items : List Value)
  | object (members : List (String × Value))

/-- The predicate `Value::IsObject`. -/
def Value.IsObject : Value → Bool
  | Value.object _ => true
  | _ => false

/-- The predicate `Value::IsString`. -/
def Value.IsString : Value → Bool
  | Value.string _ => true
  | _ => false

/-- The predicate `Value::IsNull`. -/
def Value.IsNull : Value → Bool
  | Value.null => true
  | _ => false

/-- The accessor `Value::GetString`, only meaningful on a string value. -/
def Value.GetString : Value → String
  | Value.string s => s
  | _ => ""

/-- The first member of an object with the given name, if any. -/
def Value.FindMember (name : String) : Value → Option Value
  | Value.object members => (members.find? (fun m => m.1 == name)).map Prod.snd
  | _ => none

/-- Modelled from the spec: the member access `value[name]` of the JSON library,
which is not among the sources: the first member with that name, and a null
value when there is none.  The matcher relies on it: "If a serial was not
specified, it matches any device." -/
def Value.index (v : Value) (name : String) : Value :=
  (v.FindMember name).getD Value.null

/-- The text a `const char *` denotes: the characters before the first NUL. -/
def cstr (s : String) : List Char := s.toList.takeWhile (fun c => c ≠ Char.ofNat 0)

/-- Comparison of two NUL-free character sequences, as `strcmp` does it: zero
when they agree, else the difference at the first position where they differ
(the terminator counting as 0).  The matcher only tests the result against
zero. -/
def strcmpChars : List Char → List Char → Int
  | [], [] => 0
  | [], b :: _ => -(b.toNat : Int)
  | a :: _, [] => (a.toNat : Int)
  | a :: as, b :: bs => if a = b then strcmpChars as bs else (a.toNat : Int) - (b.toNat : Int)

/-- The C library function `strcmp`. -/
def strcmp (a b : String) : Int := strcmpChars (cstr a) (cstr b)

/-- The method `USBDevice::matchConfigurationWithTypeAndSerial`. -/
def matchConfigurationWithTypeAndSerial (config : Value) (type serial : String) : Bool :=
  if !config.IsObject then false
  else
    let vtype := config.index "type"
    let vserial := config.index "serial"
    if !vtype.IsString || strcmp vtype.GetString type ≠ 0 then false
    else if !vserial.IsNull then
      if !vserial.IsString then false
      else if strcmp vserial.GetString serial ≠ 0 then false
      else true
    else true

/-- Two strings denote the same C string. -/
def CStrEq (a b : String) : Prop := cstr a = cstr b

/-- A string without a NUL character: it is the C string it denotes. -/
def NulFree (s : String) : Prop := ∀ c ∈ s.toList, c ≠ Char.ofNat 0

end USBDevice

namespace OctoWS2811z

/-! ## Buffer clearing -/

theorem clearBuffers_succ (fb db n : Nat) (m : Mem) :
    clearBuffers fb db (n + 1) m =
      store (store (clearBuffers fb db n m) (trunc32 (fb + n)) 0) (trunc32 (db + n)) 0 := by
  simp [clearBuffers, List.range_succ, List.foldl_append]

theorem clearBuffers_zero (fb db : Nat) (m : Mem) (a : Nat) :
    ∀ n, (∃ i, i < n ∧ (a = trunc32 (fb + i) ∨ a = trunc32 (db + i))) →
      clearBuffers fb db n m a = 0 := by
  intro n
  induction n with
  | zero => rintro ⟨i, hi, _⟩; omega
  | succ n ih =>
    rintro ⟨i, hi, ha⟩
    rw [clearBuffers_succ]
    unfold store
    by_cases h1 : a = trunc32 (db + n)
    · simp [h1]
    · by_cases h2 : a = trunc32 (fb + n)
      · simp [h2]
      · simp only [h1, h2, if_false]
        apply ih
        refine ⟨i, ?_, ha⟩
        rcases Nat.lt_succ_iff_lt_or_eq.mp hi with h | h
        · exact h
        · subst h
          rcases ha with ha | ha
          · exact absurd ha h2
          · exact absurd ha h1

theorem clearBuffers_other (fb db : Nat) (m : Mem) (a : Nat) :
    ∀ n, (∀ i, i < n → a ≠ trunc32 (fb + i) ∧ a ≠ trunc32 (db + i)) →
      clearBuffers fb db n m a = m a := by
  intro n
  induction n with
  | zero => intro _; rfl
  | succ n ih =>
    intro h
    rw [clearBuffers_succ]
    unfold store
    have hn := h n (Nat.lt_succ_self n)
    simp only [hn.1, hn.2, if_false]
    exact ih (fun i hi => h i (Nat.lt_succ_of_lt hi))

theorem trunc32_of_lt {x : Nat} (h : x < 2 ^ 32) : trunc32 x = x :=
  Nat.mod_eq_of_lt h

end OctoWS2811z

namespace OctoWS2811z

/-! ## Arithmetic and bit lemmas -/

theorem sub32_eq_emod (a b : Nat) :
    ((sub32 a b : Nat) : Int) = ((a : Int) - (b : Int)) % 2 ^ 32 := by
  unfold sub32 trunc32
  norm_num
  omega

theorem sub32_zero (a : Nat) : sub32 a 0 = a % 2 ^ 32 := by
  unfold sub32 trunc32
  norm_num

theorem sub32_of_le {t u : Nat} (h : t ≤ u) (hd : u - t < 2 ^ 32) :
    sub32 (u % 2 ^ 32) (t % 2 ^ 32) = u - t := by
  unfold sub32 trunc32
  norm_num at *
  omega

theorem truncIter_trunc32 (x : Nat) : truncIter (trunc32 x) = x % 2 ^ 16 := by
  unfold truncIter trunc32 iterBits
  omega

theorem flagSet_self (a : Nat) : flagSet a a := by
  unfold flagSet
  exact Nat.and_self a

theorem flagSet_or_left (a b : Nat) : flagSet a (a ||| b) := by
  unfold flagSet
  apply Nat.eq_of_testBit_eq
  intro i
  simp only [Nat.testBit_and, Nat.testBit_or]
  cases a.testBit i <;> cases b.testBit i <;> rfl

theorem flagSet_or_right (a b : Nat) : flagSet b (a ||| b) := by
  unfold flagSet
  apply Nat.eq_of_testBit_eq
  intro i
  simp only [Nat.testBit_and, Nat.testBit_or]
  cases a.testBit i <;> cases b.testBit i <;> rfl

/-! ## Set-up calls leave the completion state alone -/

theorem setup_completion (hw : Kinetis) (calls : List SetupCall) :
    ∀ s, (setup hw calls s).update_in_progress = s.update_in_progress ∧
      (setup hw calls s).update_completed_at = s.update_completed_at := by
  induction calls with
  | nil => intro s; exact ⟨rfl, rfl⟩
  | cons c rest ih =>
    intro s
    cases c with
    | construct n b c => exact ih _
    | begin => exact ih _

end OctoWS2811z

namespace OctoWS2811z

/-! ## Initialisation clears both halves (C1) -/

/-- C1 (amended): for every pixel count `N` below `2 ^ 16` (so that it fits the
16-bit `stripLen`) and every caller block of `2 * N * 24` bytes at `buffer`
inside the 32-bit address space, after the constructor and `begin` the `24 * N`
bytes at `frameBuffer` and the `24 * N` bytes at `drawBuffer` are all zero. -/
theorem begin_zeroes_both_halves (hw : Kinetis) (s : State) (N buffer config : Nat)
    (hN : N < 2 ^ 16) (hfit : buffer + 2 * N * 24 ≤ 2 ^ 32) :
    BuffersZeroed N (begin hw (OctoWS2811z N buffer config s)) := by
  intro j hj
  have h16 : trunc16 N = N := Nat.mod_eq_of_lt hN
  have hlen : trunc32 (N * 24) = 24 * N := by
    rw [trunc32_of_lt (by omega)]; omega
  have hoff : trunc32 (trunc32 (24 * N) + buffer) = buffer + 24 * N := by
    rw [trunc32_of_lt (show 24 * N < 2 ^ 32 by omega), trunc32_of_lt (by omega)]; omega
  simp only [begin, OctoWS2811z, h16, hlen, hoff]
  constructor
  · apply clearBuffers_zero
    exact ⟨j, hj, Or.inl (trunc32_of_lt (by omega)).symm⟩
  · apply clearBuffers_zero
    exact ⟨j, hj, Or.inr (trunc32_of_lt (by omega)).symm⟩

/-- Witness of C1 (amended): one pixel per strip, a 48-byte block at address
`0x1FFFE000` whose bytes all held `0xFF`. -/
theorem begin_zeroes_both_halves_witness :
    BuffersZeroed 1 (begin mk20dx128 (OctoWS2811z 1 0x1FFFE000 0 (filledState 0xFF))) :=
  begin_zeroes_both_halves mk20dx128 (filledState 0xFF) 1 0x1FFFE000 0 (by decide) (by decide)

/-- Counterexample to C1 as stated: with `N = 65536` pixels per strip the 16-bit
`stripLen` is 0, `begin` clears nothing, and the first byte of the front half
still holds the `0xFF` it held before, although the block of `2 * N * 24` bytes
at `0x20000000` fits the address space. -/
theorem begin_large_count_not_zeroed :
    0x20000000 + 2 * 65536 * 24 ≤ 2 ^ 32 ∧
      ¬ BuffersZeroed 65536
        (begin mk20dx128 (OctoWS2811z 65536 0x20000000 0 (filledState 0xFF))) := by
  refine ⟨by decide, ?_⟩
  intro h
  have h0 := (h 0 (by decide)).1
  have hs : trunc32 (trunc16 65536 * 24) = 0 := by decide
  simp only [begin, OctoWS2811z, hs] at h0
  simp [clearBuffers, filledState] at h0

/-! ## The busy query (C2, C4) -/

/-- C2: `busy` returns 1 exactly when `update_in_progress` is non-zero or the
elapsed time `micros() - update_completed_at`, taken modulo `2 ^ 32`, is below
50 microseconds, and returns 0 in every other case. -/
theorem busy_iff (now : Nat) (s : State) :
    (busy now s = 1 ↔
      (s.update_in_progress ≠ 0 ∨
        ((now : Int) - (s.update_completed_at : Int)) % 2 ^ 32 < 50)) ∧
    (busy now s = 0 ↔
      ¬ (s.update_in_progress ≠ 0 ∨
        ((now : Int) - (s.update_completed_at : Int)) % 2 ^ 32 < 50)) := by
  have key : sub32 now s.update_completed_at < 50 ↔
      ((now : Int) - (s.update_completed_at : Int)) % 2 ^ 32 < 50 := by
    rw [← sub32_eq_emod]; exact Int.ofNat_lt.symm
  rw [← key]
  unfold busy
  by_cases h1 : s.update_in_progress ≠ 0
  · simp [h1]
  · by_cases h2 : sub32 now s.update_completed_at < 50
    · simp [h1, h2]
    · simp [h1, h2]

/-- C4 (amended): before any frame has been launched, that is after any
sequence of constructor and `begin` calls from the statically initialised state,
`busy` returns 0 for every clock value of at least 50 microseconds (modulo
`2 ^ 32`), and returns 1 while the clock reads less than 50. -/
theorem busy_before_first_frame (hw : Kinetis) (rest : State) (calls : List SetupCall)
    (now : Nat) :
    busy now (setup hw calls (boot rest)) = if now % 2 ^ 32 < 50 then 1 else 0 := by
  obtain ⟨h1, h2⟩ := setup_completion hw calls (boot rest)
  unfold busy
  rw [h1, h2]
  simp only [boot, ne_eq, not_true_eq_false, if_false, sub32_zero]

/-- Counterexample to C4 as stated: in the statically initialised state, with
`show` never called, `busy` returns 1 when the microsecond clock reads 0. -/
theorem busy_at_boot_clock_zero :
    ¬ (∀ now : Nat, busy now (boot (filledState 0)) = 0) := by
  intro h
  have h0 := h 0
  simp [busy, boot, sub32, trunc32] at h0

/-! ## The DMA descriptors written by `begin` (C8, C9) -/

theorem begin_channel1_count (hw : Kinetis) (s : State) :
    (begin hw s).DMA_TCD1.CITER_ELINKNO = s.stripLen * 24 % 2 ^ 16 := by
  simp only [begin, truncIter_trunc32]

/-- C8 (amended): after `begin`, the `CITER` and `BITER` registers of channels
1, 2 and 3 all hold the same count, `stripLen * 24` reduced modulo `2 ^ 16` (the
registers are 16 bits wide); the count is exactly `stripLen * 24` whenever
`stripLen * 24 < 2 ^ 16`, that is for `stripLen ≤ 2730`; and `DREQ` is set in the
`CSR` of every channel. -/
theorem begin_transfer_counts (hw : Kinetis) (s : State) :
    ((begin hw s).DMA_TCD1.CITER_ELINKNO = s.stripLen * 24 % 2 ^ 16 ∧
      (begin hw s).DMA_TCD1.BITER_ELINKNO = s.stripLen * 24 % 2 ^ 16 ∧
      (begin hw s).DMA_TCD2.CITER_ELINKNO = s.stripLen * 24 % 2 ^ 16 ∧
      (begin hw s).DMA_TCD2.BITER_ELINKNO = s.stripLen * 24 % 2 ^ 16 ∧
      (begin hw s).DMA_TCD3.CITER_ELINKNO = s.stripLen * 24 % 2 ^ 16 ∧
      (begin hw s).DMA_TCD3.BITER_ELINKNO = s.stripLen * 24 % 2 ^ 16) ∧
    (s.stripLen ≤ 2730 →
      (begin hw s).DMA_TCD1.CITER_ELINKNO = s.stripLen * 24 ∧
      (begin hw s).DMA_TCD1.BITER_ELINKNO = s.stripLen * 24 ∧
      (begin hw s).DMA_TCD2.CITER_ELINKNO = s.stripLen * 24 ∧
      (begin hw s).DMA_TCD2.BITER_ELINKNO = s.stripLen * 24 ∧
      (begin hw s).DMA_TCD3.CITER_ELINKNO = s.stripLen * 24 ∧
      (begin hw s).DMA_TCD3.BITER_ELINKNO = s.stripLen * 24) ∧
    (flagSet hw.DMA_TCD_CSR_DREQ (begin hw s).DMA_TCD1.CSR ∧
      flagSet hw.DMA_TCD_CSR_DREQ (begin hw s).DMA_TCD2.CSR ∧
      flagSet hw.DMA_TCD_CSR_DREQ (begin hw s).DMA_TCD3.CSR) := by
  refine ⟨?_, ?_, ?_⟩
  · simp only [begin, truncIter_trunc32, and_self]
  · intro h
    have hm : s.stripLen * 24 % 2 ^ 16 = s.stripLen * 24 := Nat.mod_eq_of_lt (by omega)
    simp only [begin, truncIter_trunc32, hm, and_self]
  · simp only [begin]
    exact ⟨flagSet_self _, flagSet_self _, flagSet_or_left _ _⟩

/-- Witness of C8 (amended): a driver constructed for 60 pixels per strip has
all six count registers at 1440 after `begin`. -/
theorem begin_transfer_counts_witness :
    (begin mk20dx128 (OctoWS2811z 60 0x1FFFE000 0 (filledState 0))).DMA_TCD1.CITER_ELINKNO
        = 1440 ∧
      (begin mk20dx128 (OctoWS2811z 60 0x1FFFE000 0 (filledState 0))).DMA_TCD3.BITER_ELINKNO
        = 1440 := by
  have h := (begin_transfer_counts mk20dx128
    (OctoWS2811z 60 0x1FFFE000 0 (filledState 0))).2.1 (by decide)
  exact ⟨h.1, h.2.2.2.2.2⟩

/-- Counterexample to C8 as stated: for `stripLen = 2731` the product
`stripLen * 24` is 65544, which the 16-bit count register of channel 1 holds as
8. -/
theorem begin_count_wraps :
    (OctoWS2811z 2731 0x20000000 0 (filledState 0)).stripLen = 2731 ∧
      (begin mk20dx128 (OctoWS2811z 2731 0x20000000 0 (filledState 0))).DMA_TCD1.CITER_ELINKNO
        = 8 ∧
      (begin mk20dx128 (OctoWS2811z 2731 0x20000000 0 (filledState 0))).DMA_TCD1.CITER_ELINKNO
        ≠ 2731 * 24 := by
  have h := begin_channel1_count mk20dx128 (OctoWS2811z 2731 0x20000000 0 (filledState 0))
  have hv : (OctoWS2811z 2731 0x20000000 0 (filledState 0)).stripLen * 24 % 2 ^ 16 = 8 := by
    decide
  rw [hv] at h
  refine ⟨by decide, h, ?_⟩
  rw [h]
  decide

/-- C9 (amended): after `begin`, channel 3 reads the constant all-ones byte
`ones = 0xFF` (the same source as channel 1) and writes it to the clear-bits
register `GPIOD_PCOR`, with no source or destination advance, one byte per
trigger and `INTMAJOR` (and `DREQ`) set in its `CSR`; channel 1 reads the constant
`0xFF` and writes it to the set-bits register `GPIOD_PSOR`, with no source or
destination advance. -/
theorem begin_channel_setup (hw : Kinetis) (s : State) :
    ((begin hw s).DMA_TCD3.SADDR = Addr.ones ∧
      (∀ (m : Mem) (psor pdor pcor : Nat),
        srcByte m psor pdor pcor (begin hw s).DMA_TCD3.SADDR = 0xFF) ∧
      (begin hw s).DMA_TCD3.DADDR = Addr.GPIOD_PCOR ∧
      (begin hw s).DMA_TCD3.SOFF = 0 ∧
      (begin hw s).DMA_TCD3.SLAST = 0 ∧
      (begin hw s).DMA_TCD3.DOFF = 0 ∧
      (begin hw s).DMA_TCD3.DLASTSGA = 0 ∧
      (begin hw s).DMA_TCD3.NBYTES_MLNO = 1 ∧
      flagSet hw.DMA_TCD_CSR_INTMAJOR (begin hw s).DMA_TCD3.CSR ∧
      flagSet hw.DMA_TCD_CSR_DREQ (begin hw s).DMA_TCD3.CSR) ∧
    ((begin hw s).DMA_TCD1.SADDR = Addr.ones ∧
      (∀ (m : Mem) (psor pdor pcor : Nat),
        srcByte m psor pdor pcor (begin hw s).DMA_TCD1.SADDR = 0xFF) ∧
      (begin hw s).DMA_TCD1.DADDR = Addr.GPIOD_PSOR ∧
      (begin hw s).DMA_TCD1.SOFF = 0 ∧
      (begin hw s).DMA_TCD1.SLAST = 0 ∧
      (begin hw s).DMA_TCD1.DOFF = 0 ∧
      (begin hw s).DMA_TCD1.DLASTSGA = 0 ∧
      (begin hw s).DMA_TCD1.NBYTES_MLNO = 1) := by
  exact ⟨⟨rfl, fun _ _ _ _ => rfl, rfl, rfl, rfl, rfl, rfl, rfl,
    flagSet_or_right _ _, flagSet_or_left _ _⟩,
    ⟨rfl, fun _ _ _ _ => rfl, rfl, rfl, rfl, rfl, rfl, rfl⟩⟩

/-- Counterexample to C9 as stated: the byte channel 3 writes to `GPIOD_PCOR`
after `begin` is `0xFF`, not an all-zero byte. -/
theorem begin_channel3_source_not_zero :
    (begin mk20dx128 (filledState 0)).DMA_TCD3.DADDR = Addr.GPIOD_PCOR ∧
      srcByte (begin mk20dx128 (filledState 0)).mem 0 0 0
        (begin mk20dx128 (filledState 0)).DMA_TCD3.SADDR = 0xFF ∧
      srcByte (begin mk20dx128 (filledState 0)).mem 0 0 0
        (begin mk20dx128 (filledState 0)).DMA_TCD3.SADDR ≠ 0 := by
  refine ⟨rfl, rfl, ?_⟩
  simp [begin, srcByte, ones]

end OctoWS2811z

namespace OctoWS2811z

/-! ## The completion handler and the busy-wait loops -/

theorem served_refl (s : State) : Served s s := Or.inl rfl

theorem served_isr {s s1 : State} (t : Nat) (h : Served s s1) :
    Served s (dma_ch3_isr t s1) := by
  rcases h with h | ⟨t0, h⟩
  · subst h; exact Or.inr ⟨t, rfl⟩
  · subst h; exact Or.inr ⟨t, rfl⟩

theorem served_deliver {s s1 : State} (env : Env) (k : Nat) (h : Served s s1) :
    Served s (deliver env k s1) := by
  unfold deliver
  split
  · exact served_isr _ h
  · exact h

theorem served_trans {s s1 s2 : State} (h1 : Served s s1) (h2 : Served s1 s2) :
    Served s s2 := by
  rcases h2 with h2 | ⟨t, h2⟩
  · subst h2; exact h1
  · subst h2; exact served_isr t h1

theorem served_fields {s s1 : State} (h : Served s s1) :
    s1.frameBuffer = s.frameBuffer ∧ s1.drawBuffer = s.drawBuffer ∧
      s1.stripLen = s.stripLen ∧ s1.mem = s.mem ∧ s1.DMA_TCD2 = s.DMA_TCD2 ∧
      s1.FTM1_SC = s.FTM1_SC ∧ s1.FTM1_C1V = s.FTM1_C1V := by
  rcases h with h | ⟨t, h⟩
  · subst h; exact ⟨rfl, rfl, rfl, rfl, rfl, rfl, rfl⟩
  · subst h; exact ⟨rfl, rfl, rfl, rfl, rfl, rfl, rfl⟩

theorem waitPrior_served (env : Env) :
    ∀ (fuel k : Nat) (s : State) (k1 : Nat) (s1 : State),
      waitPrior env fuel k s = some (k1, s1) → Served s s1 ∧ s1.update_in_progress = 0 := by
  intro fuel
  induction fuel with
  | zero => intro k s k1 s1 h; simp [waitPrior] at h
  | succ fuel ih =>
    intro k s k1 s1 h
    simp only [waitPrior] at h
    split at h
    · obtain ⟨h1, h2⟩ := ih _ _ _ _ h
      exact ⟨served_trans (served_deliver env k (served_refl s)) h1, h2⟩
    · rename_i hz
      simp only [Option.some.injEq, Prod.mk.injEq] at h
      obtain ⟨_, h⟩ := h
      subst h
      exact ⟨served_deliver env k (served_refl s), by simpa using hz⟩

theorem waitReset_served (env : Env) :
    ∀ (fuel k : Nat) (s : State) (k1 : Nat) (s1 : State),
      waitReset env fuel k s = some (k1, s1) → Served s s1 := by
  intro fuel
  induction fuel with
  | zero => intro k s k1 s1 h; simp [waitReset] at h
  | succ fuel ih =>
    intro k s k1 s1 h
    simp only [waitReset] at h
    split at h
    · exact served_trans (served_deliver env k (served_refl s)) (ih _ _ _ _ h)
    · simp only [Option.some.injEq, Prod.mk.injEq] at h
      obtain ⟨_, h⟩ := h
      subst h
      exact served_deliver env k (served_refl s)

/-- What holds of the state in which `show` returns, whatever happened during
its busy-wait loops. -/
theorem show_fields (env : Env) (fuel k : Nat) (s : State) (k1 : Nat) (s1 : State)
    (h : show_ env fuel k s = some (k1, s1)) :
    s1.frameBuffer = s.drawBuffer ∧ s1.drawBuffer = s.frameBuffer ∧
      s1.DMA_TCD2.SADDR = Addr.ptr s1.frameBuffer ∧ s1.update_in_progress = 1 ∧
      s1.DMA_ERQ = 0x0E ∧ s1.FTM1_SC = s.FTM1_SC ∧ s1.mem = s.mem ∧
      s1.stripLen = s.stripLen ∧ s1.interruptsEnabled = true := by
  unfold show_ at h
  cases hp : waitPrior env fuel k s with
  | none => simp [hp] at h
  | some r =>
    obtain ⟨ka, sa⟩ := r
    simp only [hp] at h
    obtain ⟨hsa, _⟩ := waitPrior_served env fuel k s ka sa hp
    cases hr : waitReset env fuel ka
        { swap sa with
          DMA_TCD2 := { (swap sa).DMA_TCD2 with SADDR := Addr.ptr (swap sa).frameBuffer } } with
    | none => simp [hr] at h
    | some r2 =>
      obtain ⟨kb, sb⟩ := r2
      simp only [hr] at h
      have hsb := served_deliver env kb (waitReset_served env fuel ka _ kb sb hr)
      obtain ⟨f1, f2, f3, f4, f5, f6, _⟩ := served_fields hsb
      obtain ⟨g1, g2, g3, g4, _, g6, _⟩ := served_fields hsa
      split at h
      · simp at h
      · split at h
        · simp at h
        · split at h
          · simp at h
          · simp only [Option.some.injEq, Prod.mk.injEq] at h
            obtain ⟨_, h⟩ := h
            subst h
            simp only [f1, f2, f3, f4, f5, f6, swap, g1, g2, g3, g4, g6]
            exact ⟨trivial, trivial, trivial, trivial, trivial, trivial, trivial, trivial,
              trivial⟩

end OctoWS2811z

namespace OctoWS2811z

/-! ## Termination of the busy-wait loops -/

theorem waitCnt_mono (env : Env) (c : Nat → Bool) :
    ∀ (fuel k r : Nat), waitCnt env c fuel k = some r →
      ∀ d, waitCnt env c (fuel + d) k = some r := by
  intro fuel
  induction fuel with
  | zero => intro k r h; simp [waitCnt] at h
  | succ fuel ih =>
    intro k r h d
    have hd : fuel + 1 + d = (fuel + d) + 1 := by omega
    rw [hd]
    simp only [waitCnt] at h ⊢
    split
    · rename_i hc
      rw [if_pos hc] at h
      exact ih _ _ h d
    · rename_i hc
      rw [if_neg hc] at h
      exact h

theorem waitCnt_returns (env : Env) (c : Nat → Bool) :
    ∀ (d k : Nat), c (env.FTM1_CNT (k + d)) = false →
      ∃ fuel r, waitCnt env c fuel k = some r := by
  intro d
  induction d with
  | zero =>
    intro k h
    refine ⟨1, k + 1, ?_⟩
    simp only [waitCnt]
    rw [Nat.add_zero] at h
    simp [h]
  | succ d ih =>
    intro k h
    by_cases hc : c (env.FTM1_CNT k) = true
    · have h1 : c (env.FTM1_CNT (k + 1 + d)) = false := by
        have : k + 1 + d = k + (d + 1) := by omega
        rw [this]; exact h
      obtain ⟨fuel, r, hr⟩ := ih (k + 1) h1
      refine ⟨fuel + 1, r, ?_⟩
      simp only [waitCnt]
      rw [if_pos hc]
      exact hr
    · refine ⟨1, k + 1, ?_⟩
      simp only [waitCnt]
      rw [if_neg hc]

theorem waitCnt_eventually (env : Env) (c : Nat → Bool) (k : Nat)
    (h : ∃ j, k ≤ j ∧ c (env.FTM1_CNT j) = false) :
    ∃ fuel r, waitCnt env c fuel k = some r := by
  obtain ⟨j, hj, hc⟩ := h
  have hjd : k + (j - k) = j := by omega
  exact waitCnt_returns env c (j - k) k (by rw [hjd]; exact hc)

theorem deliver_quiet (env : Env) (k : Nat) (s : State) (h : env.dmaDone k = false) :
    deliver env k s = s := by
  simp [deliver, h]

theorem waitPrior_idle (env : Env) (fuel k : Nat) (s : State)
    (hq : env.dmaDone k = false) (h : s.update_in_progress = 0) :
    waitPrior env (fuel + 1) k s = some (k + 1, s) := by
  simp [waitPrior, deliver_quiet env k s hq, h]

theorem waitReset_elapsed (env : Env) (fuel k : Nat) (s : State)
    (hq : env.dmaDone k = false)
    (h : ¬ sub32 (env.micros k) s.update_completed_at < 50) :
    waitReset env (fuel + 1) k s = some (k + 1, s) := by
  simp only [waitReset, deliver_quiet env k s hq]
  rw [if_neg h]

/-- With no transmission in flight (so no completion interrupt is raised), the
reset gap elapsed and the timer counter running, `show` returns. -/
theorem show_returns (env : Env) (k : Nat) (s : State)
    (hidle : s.update_in_progress = 0)
    (hquiet : ∀ j, env.dmaDone j = false)
    (hgap : ¬ sub32 (env.micros (k + 1)) s.update_completed_at < 50)
    (hhigh : ∀ j, ∃ i, j ≤ i ∧ s.FTM1_C1V < env.FTM1_CNT i)
    (hlow : ∀ j, ∃ i, j ≤ i ∧ env.FTM1_CNT i ≤ s.FTM1_C1V) :
    ∃ fuel r, show_ env fuel k s = some r := by
  obtain ⟨fa, ra, ha⟩ := waitCnt_eventually env (fun cnt => decide (cnt ≤ s.FTM1_C1V)) (k + 2 + 1)
    (by
      obtain ⟨i, hi, hc⟩ := hhigh (k + 2 + 1)
      exact ⟨i, hi, by simp only [decide_eq_false_iff_not]; omega⟩)
  obtain ⟨fb, rb, hb⟩ := waitCnt_eventually env (fun cnt => decide (cnt > s.FTM1_C1V)) ra
    (by
      obtain ⟨i, hi, hc⟩ := hlow ra
      exact ⟨i, hi, by simp only [decide_eq_false_iff_not]; omega⟩)
  obtain ⟨fc, rc, hc⟩ := waitCnt_eventually env (fun cnt => decide (cnt < s.FTM1_C1V)) rb
    (by
      obtain ⟨i, hi, hc⟩ := hhigh rb
      exact ⟨i, hi, by simp only [decide_eq_false_iff_not]; omega⟩)
  have ha1 := waitCnt_mono env _ fa _ ra ha (fb + fc + 1)
  have hb1 := waitCnt_mono env _ fb _ rb hb (fa + fc + 1)
  have hc1 := waitCnt_mono env _ fc _ rc hc (fa + fb + 1)
  have e1 : fa + (fb + fc + 1) = fa + fb + fc + 1 := by omega
  have e2 : fb + (fa + fc + 1) = fa + fb + fc + 1 := by omega
  have e3 : fc + (fa + fb + 1) = fa + fb + fc + 1 := by omega
  rw [e1] at ha1
  rw [e2] at hb1
  rw [e3] at hc1
  refine ⟨fa + fb + fc + 1, ?_⟩
  unfold show_
  rw [waitPrior_idle env _ k s (hquiet k) hidle]
  simp only []
  have hr := waitReset_elapsed env (fa + fb + fc) (k + 1)
    { swap s with
      DMA_TCD2 := { (swap s).DMA_TCD2 with SADDR := Addr.ptr (swap s).frameBuffer } }
    (hquiet (k + 1)) hgap
  rw [hr]
  simp only [deliver_quiet env (k + 1 + 1) _ (hquiet (k + 1 + 1))]
  simp only [swap]
  rw [ha1]
  simp only []
  rw [hb1]
  simp only []
  rw [hc1]
  exact ⟨_, rfl⟩

end OctoWS2811z

namespace OctoWS2811z

/-! ## Busy status around a frame (C3) -/

theorem sub32_trunc32_right (a b : Nat) : sub32 a (trunc32 b) = sub32 a b := by
  unfold sub32 trunc32
  rw [Nat.mod_mod]

theorem busy_of_in_progress (now : Nat) (s : State) (h : s.update_in_progress = 1) :
    busy now s = 1 := by
  simp [busy, h]

theorem busy_after_isr (hw : Kinetis) (later : List SetupCall) (t now : Nat) (s : State)
    (h : sub32 now t < 50) :
    busy now (setup hw later (dma_ch3_isr t s)) = 1 := by
  obtain ⟨h1, h2⟩ := setup_completion hw later (dma_ch3_isr t s)
  unfold busy
  rw [h1, h2]
  simp only [dma_ch3_isr, sub32_trunc32_right, ne_eq, not_true_eq_false, if_false, h, if_true]

/-- C3: in every state in which `show` returns, `busy` returns 1 at every clock
value, also after further constructor or `begin` calls, as long as `dma_ch3_isr`
has not run; `dma_ch3_isr` run at clock value `t` records `t` as completion time
and clears the in-progress flag; and after it `busy` still returns 1 at every
clock value `t'` whose 32-bit difference `t' - t` is below 50 microseconds, in
particular at every time `t ≤ t' < t + 50`. -/
theorem busy_through_reset_gap (hw : Kinetis) (env : Env) (fuel k : Nat) (s : State)
    (k1 : Nat) (s1 : State) (h : show_ env fuel k s = some (k1, s1)) :
    (∀ (calls : List SetupCall) (now : Nat), busy now (setup hw calls s1) = 1) ∧
    (∀ (calls : List SetupCall) (t : Nat),
      (dma_ch3_isr t (setup hw calls s1)).update_completed_at = t % 2 ^ 32 ∧
        (dma_ch3_isr t (setup hw calls s1)).update_in_progress = 0) ∧
    (∀ (calls later : List SetupCall) (t t' : Nat), sub32 t' t < 50 →
      busy t' (setup hw later (dma_ch3_isr t (setup hw calls s1))) = 1) ∧
    (∀ (calls later : List SetupCall) (t t' : Nat), t ≤ t' → t' - t < 50 →
      busy (t' % 2 ^ 32)
        (setup hw later (dma_ch3_isr (t % 2 ^ 32) (setup hw calls s1))) = 1) := by
  obtain ⟨_, _, _, hin, _⟩ := show_fields env fuel k s k1 s1 h
  refine ⟨?_, ?_, ?_, ?_⟩
  · intro calls now
    apply busy_of_in_progress
    rw [(setup_completion hw calls s1).1]
    exact hin
  · intro calls t
    exact ⟨rfl, rfl⟩
  · intro calls later t t' ht
    exact busy_after_isr hw later t t' _ ht
  · intro calls later t t' hle hlt
    apply busy_after_isr
    rw [sub32_of_le hle (by omega)]
    exact hlt

/-- Witness of C3: a frame launched from the all-zero state; the driver is busy
at clock value 12345 while the frame is in flight, and at clock value 1049 when
the completion handler ran at clock value 1000. -/
theorem busy_through_reset_gap_witness :
    ∃ r, show_ quietEnv 1 0 (filledState 0) = some r ∧
      busy 12345 r.2 = 1 ∧ busy 1049 (dma_ch3_isr 1000 r.2) = 1 := by
  have hs : (show_ quietEnv 1 0 (filledState 0)).isSome = true := by decide
  cases hr : show_ quietEnv 1 0 (filledState 0) with
  | none => rw [hr] at hs; exact absurd hs (by decide)
  | some r =>
    obtain ⟨k1, s1⟩ := r
    have h := busy_through_reset_gap mk20dx128 quietEnv 1 0 (filledState 0) k1 s1 hr
    exact ⟨(k1, s1), rfl, h.1 [] 12345, h.2.2.1 [] [] 1000 1049 (by decide)⟩

end OctoWS2811z

namespace OctoWS2811z

/-! ## Frame launch (C5) -/

/-- C5: when `show` is entered with no transmission in flight (the in-progress
flag clear and no completion interrupt raised), the reset gap elapsed and the
timer counter running, it returns; and whenever it returns, `frameBuffer` is the
previous `drawBuffer`, `drawBuffer` the previous `frameBuffer`, `DMA_TCD2_SADDR`
is the new `frameBuffer`, `update_in_progress` is 1, `DMA_ERQ` is `0x0E` (bits 1,
2 and 3 set) and `FTM1_SC` holds the value it had on entry. -/
theorem show_launches_frame (env : Env) (k : Nat) (s : State)
    (hidle : s.update_in_progress = 0)
    (hquiet : ∀ j, env.dmaDone j = false)
    (hgap : ¬ sub32 (env.micros (k + 1)) s.update_completed_at < 50)
    (hhigh : ∀ j, ∃ i, j ≤ i ∧ s.FTM1_C1V < env.FTM1_CNT i)
    (hlow : ∀ j, ∃ i, j ≤ i ∧ env.FTM1_CNT i ≤ s.FTM1_C1V) :
    (∃ fuel r, show_ env fuel k s = some r) ∧
    ∀ (fuel k1 : Nat) (s1 : State), show_ env fuel k s = some (k1, s1) →
      s1.frameBuffer = s.drawBuffer ∧ s1.drawBuffer = s.frameBuffer ∧
      s1.DMA_TCD2.SADDR = Addr.ptr s1.frameBuffer ∧
      s1.update_in_progress = 1 ∧
      (s1.DMA_ERQ = 0x0E ∧ s1.DMA_ERQ.testBit 1 = true ∧ s1.DMA_ERQ.testBit 2 = true ∧
        s1.DMA_ERQ.testBit 3 = true) ∧
      s1.FTM1_SC = s.FTM1_SC := by
  refine ⟨show_returns env k s hidle hquiet hgap hhigh hlow, ?_⟩
  intro fuel k1 s1 h
  obtain ⟨h1, h2, h3, h4, h5, h6, _⟩ := show_fields env fuel k s k1 s1 h
  refine ⟨h1, h2, h3, h4, ⟨h5, ?_, ?_, ?_⟩, h6⟩ <;> rw [h5] <;> decide

/-- Witness of C5: a driver constructed for one pixel per strip on a block at
`0x1FFFE000`, timer control register `0x48`, launched at tick 0 of `quietEnv`. -/
theorem show_launches_frame_witness :
    ∃ r, show_ quietEnv 1 0
        { OctoWS2811z 1 0x1FFFE000 0 (filledState 0xFF) with FTM1_SC := 0x48 } = some r ∧
      r.2.frameBuffer = 0x1FFFE018 ∧ r.2.drawBuffer = 0x1FFFE000 ∧
      r.2.DMA_TCD2.SADDR = Addr.ptr 0x1FFFE018 ∧ r.2.update_in_progress = 1 ∧
      r.2.DMA_ERQ = 0x0E ∧ r.2.FTM1_SC = 0x48 := by
  have h := show_launches_frame quietEnv 0
    { OctoWS2811z 1 0x1FFFE000 0 (filledState 0xFF) with FTM1_SC := 0x48 }
    rfl (fun _ => rfl) (by decide)
    (fun j => ⟨2 * j + 1, by omega, by
      show 0 < (2 * j + 1) % 2
      omega⟩)
    (fun j => ⟨2 * j, by omega, by
      show (2 * j) % 2 ≤ 0
      omega⟩)
  have hs : (show_ quietEnv 1 0
      { OctoWS2811z 1 0x1FFFE000 0 (filledState 0xFF) with FTM1_SC := 0x48 }).isSome
      = true := by decide
  cases hr : show_ quietEnv 1 0
      { OctoWS2811z 1 0x1FFFE000 0 (filledState 0xFF) with FTM1_SC := 0x48 } with
  | none => rw [hr] at hs; exact absurd hs (by decide)
  | some r =>
    obtain ⟨k1, s1⟩ := r
    obtain ⟨h1, h2, h3, h4, ⟨h5, _⟩, h6⟩ := h.2 1 k1 s1 hr
    refine ⟨(k1, s1), rfl, ?_, ?_, ?_, h4, h5, ?_⟩
    · rw [h1]; decide
    · rw [h2]
      rfl
    · rw [h3, h1]; decide
    · rw [h6]

/-! ## The buffer exchange (C6) -/

/-- C6: the exchange `show` performs is an involution that copies nothing: one
`swap` exchanges the two pointers, two restore the state, hence both pointers,
exactly, neither changes any byte of RAM, and a whole `show` leaves the pointers
as one `swap` does and every byte of RAM as it was. -/
theorem swap_involution (s : State) :
    swap (swap s) = s ∧
    (swap (swap s)).frameBuffer = s.frameBuffer ∧
    (swap (swap s)).drawBuffer = s.drawBuffer ∧
    (swap s).frameBuffer = s.drawBuffer ∧ (swap s).drawBuffer = s.frameBuffer ∧
    (∀ a, (swap s).mem a = s.mem a) ∧ (∀ a, (swap (swap s)).mem a = s.mem a) ∧
    (∀ (env : Env) (fuel k k1 : Nat) (s1 : State), show_ env fuel k s = some (k1, s1) →
      s1.frameBuffer = (swap s).frameBuffer ∧ s1.drawBuffer = (swap s).drawBuffer ∧
        ∀ a, s1.mem a = s.mem a) := by
  refine ⟨rfl, rfl, rfl, rfl, rfl, fun _ => rfl, fun _ => rfl, ?_⟩
  intro env fuel k k1 s1 h
  obtain ⟨h1, h2, _, _, _, _, h7, _⟩ := show_fields env fuel k s k1 s1 h
  exact ⟨h1, h2, fun a => by rw [h7]⟩

end OctoWS2811z

namespace OctoWS2811z

/-! ## The double-buffer invariant (C7) -/

theorem run_pointers (hw : Kinetis) (env : Env) :
    ∀ (calls : List Call) (k : Nat) (s : State) (k1 : Nat) (s1 : State),
      run hw env calls k s = some (k1, s1) →
        s1.stripLen = s.stripLen ∧
        s1.frameBuffer = (if showCount calls % 2 = 0 then s.frameBuffer else s.drawBuffer) ∧
        s1.drawBuffer = (if showCount calls % 2 = 0 then s.drawBuffer else s.frameBuffer) := by
  intro calls
  induction calls with
  | nil =>
    intro k s k1 s1 h
    simp only [run, Option.some.injEq, Prod.mk.injEq] at h
    obtain ⟨_, h⟩ := h
    subst h
    exact ⟨rfl, rfl, rfl⟩
  | cons c rest ih =>
    intro k s k1 s1 h
    cases c with
    | begin =>
      simp only [run] at h
      obtain ⟨h1, h2, h3⟩ := ih _ (begin hw s) _ _ h
      exact ⟨h1, h2, h3⟩
    | idle =>
      simp only [run] at h
      obtain ⟨h1, h2, h3⟩ := ih _ _ _ _ h
      obtain ⟨g1, g2, g3, _⟩ := served_fields (served_deliver env k (served_refl s))
      rw [g3] at h1
      rw [g1, g2] at h2 h3
      exact ⟨h1, h2, h3⟩
    | «show» fuel =>
      simp only [run] at h
      cases hs : show_ env fuel k s with
      | none => simp [hs] at h
      | some r =>
        obtain ⟨ka, sa⟩ := r
        simp only [hs] at h
        obtain ⟨h1, h2, h3⟩ := ih _ _ _ _ h
        obtain ⟨g1, g2, _, _, _, _, _, g8, _⟩ := show_fields env fuel k s ka sa hs
        rw [g8] at h1
        rw [g1, g2] at h2 h3
        refine ⟨h1, ?_, ?_⟩
        · rw [h2]
          simp only [showCount]
          split <;> split <;> first | rfl | omega
        · rw [h3]
          simp only [showCount]
          split <;> split <;> first | rfl | omega

/-- C7 (amended): for every pixel count `N` whose block of `2 * N * 24` bytes at
the 32-bit address `buffer` lies in the 32-bit address space, after construction and any sequence of
`begin` calls, returning `show` calls and interrupt deliveries, `frameBuffer` is
`buffer` when the number of `show` calls is even and `buffer + 24 * N` when it is
odd, and `drawBuffer` is the other one; the front and draw regions both have
length `stripLen * 24` with `stripLen = N mod 2 ^ 16`, do not overlap and lie
inside the block; and when `N < 2 ^ 16` they are exactly the two halves of the
block. -/
theorem double_buffer_invariant (hw : Kinetis) (env : Env) (s : State)
    (N buffer config : Nat) (calls : List Call) (k k1 : Nat) (s1 : State)
    (hbuf : buffer < 2 ^ 32) (hfit : buffer + 2 * N * 24 ≤ 2 ^ 32)
    (hrun : run hw env calls k (OctoWS2811z N buffer config s) = some (k1, s1)) :
    s1.frameBuffer = (if showCount calls % 2 = 0 then buffer else buffer + 24 * N) ∧
    s1.drawBuffer = (if showCount calls % 2 = 0 then buffer + 24 * N else buffer) ∧
    s1.stripLen = N % 2 ^ 16 ∧
    (frontRegion s1).len = s1.stripLen * 24 ∧ (drawRegion s1).len = s1.stripLen * 24 ∧
    Region.Disjoint (frontRegion s1) (drawRegion s1) ∧
    Region.Within (frontRegion s1) buffer N ∧ Region.Within (drawRegion s1) buffer N ∧
    (N < 2 ^ 16 →
      (showCount calls % 2 = 0 →
        frontRegion s1 = lowerHalf buffer N ∧ drawRegion s1 = upperHalf buffer N) ∧
      (showCount calls % 2 = 1 →
        frontRegion s1 = upperHalf buffer N ∧ drawRegion s1 = lowerHalf buffer N)) := by
  obtain ⟨h1, h2, h3⟩ := run_pointers hw env calls k _ k1 s1 hrun
  have hoff : trunc32 (trunc32 (24 * N) + buffer) = buffer + 24 * N := by
    rw [trunc32_of_lt (show 24 * N < 2 ^ 32 by omega), trunc32_of_lt (by omega)]; omega
  simp only [OctoWS2811z, hoff, trunc16] at h1 h2 h3
  have hL : N % 2 ^ 16 ≤ N := Nat.mod_le _ _
  have hlen : s1.stripLen = N % 2 ^ 16 := h1
  refine ⟨h2, h3, hlen, rfl, rfl, ?_, ?_, ?_, ?_⟩
  · unfold Region.Disjoint frontRegion drawRegion
    simp only [h2, h3, hlen]
    split <;> omega
  · unfold Region.Within frontRegion
    simp only [h2, hlen]
    split <;> omega
  · unfold Region.Within drawRegion
    simp only [h3, hlen]
    split <;> omega
  · intro hN
    have hm : N % 2 ^ 16 = N := Nat.mod_eq_of_lt hN
    unfold frontRegion drawRegion lowerHalf upperHalf
    simp only [h2, h3, hlen, hm]
    constructor
    · intro he
      rw [if_pos he, if_pos he]
      simp only [Region.mk.injEq, true_and]
      constructor <;> omega
    · intro ho
      have hne : ¬ showCount calls % 2 = 0 := by omega
      rw [if_neg hne, if_neg hne]
      simp only [Region.mk.injEq, true_and]
      constructor <;> omega

end OctoWS2811z

namespace OctoWS2811z

/-- Witness of C7 (amended): one pixel per strip on a 48-byte block at
`0x1FFFE000`; after `begin` and two frames the front buffer is the lower half
again. -/
theorem double_buffer_invariant_witness :
    ∃ r, run mk20dx128 frameEnv [Call.begin, Call.show 1, Call.show 1] 0
        (OctoWS2811z 1 0x1FFFE000 0 (filledState 0xFF)) = some r ∧
      r.2.frameBuffer = 0x1FFFE000 ∧ r.2.drawBuffer = 0x1FFFE018 ∧
      frontRegion r.2 = lowerHalf 0x1FFFE000 1 ∧
      drawRegion r.2 = upperHalf 0x1FFFE000 1 := by
  have hs : (run mk20dx128 frameEnv [Call.begin, Call.show 1, Call.show 1] 0
      (OctoWS2811z 1 0x1FFFE000 0 (filledState 0xFF))).isSome = true := by decide
  cases hr : run mk20dx128 frameEnv [Call.begin, Call.show 1, Call.show 1] 0
      (OctoWS2811z 1 0x1FFFE000 0 (filledState 0xFF)) with
  | none => rw [hr] at hs; exact absurd hs (by decide)
  | some r =>
    obtain ⟨k1, s1⟩ := r
    obtain ⟨h1, h2, _, _, _, _, _, _, h9⟩ :=
      double_buffer_invariant mk20dx128 frameEnv (filledState 0xFF) 1 0x1FFFE000 0
        [Call.begin, Call.show 1, Call.show 1] 0 k1 s1 (by decide) (by decide) hr
    obtain ⟨h10, h11⟩ := (h9 (by decide)).1 (by decide)
    exact ⟨(k1, s1), rfl, h1, h2, h10, h11⟩

/-- Counterexample to C7 as stated: for `N = 65536` the 16-bit `stripLen` is 0,
so right after construction the front and draw regions have length 0 and are not
the halves of the block of `2 * N * 24` bytes at `0x20000000`. -/
theorem large_count_regions_not_halves :
    0x20000000 + 2 * 65536 * 24 ≤ 2 ^ 32 ∧
      (frontRegion (OctoWS2811z 65536 0x20000000 0 (filledState 0))).len = 0 ∧
      (lowerHalf 0x20000000 65536).len = 1572864 ∧
      ¬ (frontRegion (OctoWS2811z 65536 0x20000000 0 (filledState 0))
            = lowerHalf 0x20000000 65536 ∧
          drawRegion (OctoWS2811z 65536 0x20000000 0 (filledState 0))
            = upperHalf 0x20000000 65536) := by
  refine ⟨by decide, by decide, by decide, ?_⟩
  decide

end OctoWS2811z

namespace USBDevice

/-! ## Configuration matching (C10) -/

theorem char_toNat_eq_zero {c : Char} (h : c.toNat = 0) : c = Char.ofNat 0 := by
  rw [← Char.ofNat_toNat c, h]

theorem char_toNat_injective {a b : Char} (h : a.toNat = b.toNat) : a = b := by
  rw [← Char.ofNat_toNat a, ← Char.ofNat_toNat b, h]

theorem strcmpChars_eq_zero_iff :
    ∀ (a b : List Char), (∀ c ∈ a, c ≠ Char.ofNat 0) → (∀ c ∈ b, c ≠ Char.ofNat 0) →
      (strcmpChars a b = 0 ↔ a = b) := by
  intro a
  induction a with
  | nil =>
    intro b _ hb
    cases b with
    | nil => simp [strcmpChars]
    | cons y ys =>
      simp only [strcmpChars, neg_eq_zero, Int.natCast_eq_zero]
      constructor
      · intro h
        exact absurd (char_toNat_eq_zero h) (hb y (List.mem_cons_self y ys))
      · intro h
        exact absurd h (by simp)
  | cons x xs ih =>
    intro b ha hb
    cases b with
    | nil =>
      simp only [strcmpChars, Int.natCast_eq_zero]
      constructor
      · intro h
        exact absurd (char_toNat_eq_zero h) (ha x (List.mem_cons_self x xs))
      · intro h
        exact absurd h (by simp)
    | cons y ys =>
      simp only [strcmpChars]
      by_cases hxy : x = y
      · subst hxy
        simp only [if_true, List.cons.injEq, true_and]
        exact ih ys (fun c hc => ha c (List.mem_cons_of_mem _ hc))
          (fun c hc => hb c (List.mem_cons_of_mem _ hc))
      · simp only [hxy, if_false, List.cons.injEq, false_and, iff_false]
        intro h
        apply hxy
        apply char_toNat_injective
        omega

theorem cstr_nul_free (s : String) : ∀ c ∈ cstr s, c ≠ Char.ofNat 0 := by
  intro c hc
  have h := List.mem_takeWhile_imp hc
  simpa using h

theorem strcmp_eq_zero_iff (a b : String) : strcmp a b = 0 ↔ CStrEq a b := by
  unfold strcmp CStrEq
  exact strcmpChars_eq_zero_iff _ _ (cstr_nul_free a) (cstr_nul_free b)

theorem cstr_of_nulFree {s : String} (h : NulFree s) : cstr s = s.toList := by
  unfold cstr
  rw [List.takeWhile_eq_self_iff]
  intro c hc
  simpa using h c hc

theorem cstrEq_iff_eq {a b : String} (ha : NulFree a) (hb : NulFree b) :
    CStrEq a b ↔ a = b := by
  unfold CStrEq
  rw [cstr_of_nulFree ha, cstr_of_nulFree hb]
  constructor
  · intro h
    exact String.ext h
  · intro h
    rw [h]

end USBDevice

namespace USBDevice

/-- C10 (amended): `matchConfigurationWithTypeAndSerial config type serial`
returns true exactly when `config` is an object, its `"type"` member is a string
equal to `type` as a C string, and its `"serial"` member is absent, null, or a
string equal to `serial` as a C string; in every other case it returns false.
Two strings are equal as C strings when they agree up to their first NUL
character, which is how `strcmp` compares them; for strings without a NUL
character that is plain equality. -/
theorem matchConfiguration_iff (config : Value) (type serial : String) :
    (matchConfigurationWithTypeAndSerial config type serial = true ↔
      config.IsObject = true ∧
      (∃ t, config.FindMember "type" = some (Value.string t) ∧ CStrEq t type) ∧
      (config.FindMember "serial" = none ∨
        config.FindMember "serial" = some Value.null ∨
        ∃ sv, config.FindMember "serial" = some (Value.string sv) ∧ CStrEq sv serial)) ∧
    (matchConfigurationWithTypeAndSerial config type serial = false ↔
      ¬ (config.IsObject = true ∧
      (∃ t, config.FindMember "type" = some (Value.string t) ∧ CStrEq t type) ∧
      (config.FindMember "serial" = none ∨
        config.FindMember "serial" = some Value.null ∨
        ∃ sv, config.FindMember "serial" = some (Value.string sv) ∧ CStrEq sv serial))) ∧
    (∀ a b : String, NulFree a → NulFree b → (CStrEq a b ↔ a = b)) := by
  have key : matchConfigurationWithTypeAndSerial config type serial = true ↔
      config.IsObject = true ∧
      (∃ t, config.FindMember "type" = some (Value.string t) ∧ CStrEq t type) ∧
      (config.FindMember "serial" = none ∨
        config.FindMember "serial" = some Value.null ∨
        ∃ sv, config.FindMember "serial" = some (Value.string sv) ∧ CStrEq sv serial) := by
    unfold matchConfigurationWithTypeAndSerial
    cases config with
    | object members =>
      simp only [Value.IsObject, Value.index]
      obtain ⟨ot, hot⟩ : ∃ ot, Value.FindMember "type" (Value.object members) = ot := ⟨_, rfl⟩
      obtain ⟨os, hos⟩ : ∃ os, Value.FindMember "serial" (Value.object members) = os :=
        ⟨_, rfl⟩
      simp only [hot, hos]
      clear hot hos
      rcases ot with _ | vt
      · simp [Value.IsString]
      · rcases os with _ | vs
        · cases vt <;> simp [Value.IsString, Value.IsNull, Value.GetString, strcmp_eq_zero_iff]
        · cases vt <;> cases vs <;>
            simp [Value.IsString, Value.IsNull, Value.GetString, strcmp_eq_zero_iff]
    | null => simp [Value.IsObject]
    | bool b => simp [Value.IsObject]
    | number n => simp [Value.IsObject]
    | string s => simp [Value.IsObject]
    | array items => simp [Value.IsObject]
  refine ⟨key, ?_, fun a b ha hb => cstrEq_iff_eq ha hb⟩
  rw [← key]
  simp

end USBDevice

namespace USBDevice

/-- Witness of C10 (amended): a configuration naming type `fadecandy` and serial `ABC`
matches a device of that type and serial; a configuration without a serial
matches any device of its type, and not a device with another serial once the
serial is given. -/
theorem matchConfiguration_iff_witness :
    matchConfigurationWithTypeAndSerial
        (Value.object [("type", Value.string "fadecandy"), ("serial", Value.string "ABC")])
        "fadecandy" "ABC" = true ∧
      (Value.FindMember "serial" (Value.object [("type", Value.string "fadecandy")]) = none ∨
        Value.FindMember "serial" (Value.object [("type", Value.string "fadecandy")])
          = some Value.null ∨
        ∃ sv, Value.FindMember "serial" (Value.object [("type", Value.string "fadecandy")])
          = some (Value.string sv) ∧ CStrEq sv "XYZ") ∧
      ¬ (∃ sv, Value.FindMember "serial"
          (Value.object [("type", Value.string "fadecandy"), ("serial", Value.string "ABC")])
          = some (Value.string sv) ∧ CStrEq sv "XYZ") :=
  ⟨(matchConfiguration_iff _ "fadecandy" "ABC").1.mpr
      ⟨rfl, ⟨"fadecandy", rfl, rfl⟩, Or.inr (Or.inr ⟨"ABC", rfl, rfl⟩)⟩,
    ((matchConfiguration_iff (Value.object [("type", Value.string "fadecandy")])
      "fadecandy" "XYZ").1.mp (by decide)).2.2,
    fun h => (matchConfiguration_iff
      (Value.object [("type", Value.string "fadecandy"), ("serial", Value.string "ABC")])
      "fadecandy" "XYZ").2.1.mp (by decide)
      ⟨rfl, ⟨"fadecandy", rfl, rfl⟩, Or.inr (Or.inr h)⟩⟩

end USBDevice

namespace USBDevice

/-- Counterexample to C10 as stated: the configuration whose `"type"` member is
the string `fadecandy`, a NUL character, `x` and whose `"serial"` member is
`ABC`, a NUL character, `zzz` matches type `fadecandy` and serial `ABC`, although
its `"type"` member is a string different from `fadecandy` and its `"serial"`
member is a string different from `ABC`. -/
theorem matchConfiguration_embedded_nul :
    matchConfigurationWithTypeAndSerial
        (Value.object [("type", Value.string "fadecandy\x00x"),
          ("serial", Value.string "ABC\x00zzz")])
        "fadecandy" "ABC" = true ∧
      ¬ (∃ t, Value.FindMember "type"
          (Value.object [("type", Value.string "fadecandy\x00x"),
            ("serial", Value.string "ABC\x00zzz")]) = some (Value.string t) ∧
          t = "fadecandy") ∧
      ¬ (∃ sv, Value.FindMember "serial"
          (Value.object [("type", Value.string "fadecandy\x00x"),
            ("serial", Value.string "ABC\x00zzz")]) = some (Value.string sv) ∧
          sv = "ABC") := by
  refine ⟨by decide, ?_, ?_⟩
  · rintro ⟨t, h, ht⟩
    have h1 : Value.FindMember "type"
        (Value.object [("type", Value.string "fadecandy\x00x"),
          ("serial", Value.string "ABC\x00zzz")])
        = some (Value.string "fadecandy\x00x") := rfl
    rw [h1] at h
    simp only [Option.some.injEq, Value.string.injEq] at h
    rw [← h] at ht
    exact absurd ht (by decide)
  · rintro ⟨sv, h, hs⟩
    have h1 : Value.FindMember "serial"
        (Value.object [("type", Value.string "fadecandy\x00x"),
          ("serial", Value.string "ABC\x00zzz")])
        = some (Value.string "ABC\x00zzz") := rfl
    rw [h1] at h
    simp only [Option.some.injEq, Value.string.injEq] at h
    rw [← h] at hs
    exact absurd hs (by decide)

end USBDevice
